import Mathlib

/-!
Shallow embedding of the per-frame simulation of the "resurgence" sketch
(src/unnamed/part_000; the particle loop is identical in src/src/main.js).
Scalar per-frame formulas are embedded over ℚ; the 3-vector state of the
sphere and of the particles is embedded over ℝ with a minimal Vec3 type
mirroring the THREE.Vector3 operations the loop uses.
-/

namespace Resurgence

/-- Gravity coefficient, part_000 line 291: `K = 5 + 1800 * Math.min(1, (dist - 10) / 400)`. -/
def K (d : ℚ) : ℚ := 5 + 1800 * min 1 ((d - 10) / 400)

/-- Gravity strength, part_000 line 292: `gravStrength = K / (dist * dist)`.
No minimum-distance clamp appears in the source before the division.
(ℚ division by zero yields 0, whereas JS yields -Infinity at `dist = 0`
since K(0) = -40; the theorems below therefore only evaluate this
function at nonzero distances.) -/
def gravStrength (d : ℚ) : ℚ := K d / (d * d)

/-- Audio intensity from distance, part_000 line 280: `2 - Math.min(1, dist / 160)`. -/
def intensityOf (d : ℚ) : ℚ := 2 - min 1 (d / 160)

/-- The clamp in `setAudioIntensity`, part_000 line 123:
`Math.max(0, Math.min(1.2, intensity))`. -/
def clampIntensity (v : ℚ) : ℚ := max 0 (min 1.2 v)

/-- Audio envelope state (part_000 lines 96-98): the module-level flags and
scalars read and written by `startAudio`, `setAudioIntensity`, `fadeOutAudio`
and the smoothing step in `animate`.  `filterFreq` is `filterNode.frequency.value`,
and `fadeStartGain`/`fadeStartTime` are the `start`/`startTime` captured by
`fadeOutAudio` when a fade begins. -/
structure AudioState where
  audioStarted : Bool
  fading : Bool
  currentGain : ℚ
  targetGain : ℚ
  filterFreq : ℚ
  fadeStartGain : ℚ
  fadeStartTime : ℚ
deriving DecidableEq

/-- `setAudioIntensity`, part_000 lines 120-130: early return when audio has not
started; otherwise clamp the intensity, set `targetGain = 0.13 + 0.95 * intensity`
and `filterNode.frequency.value = 800 + 8000 * (1 - intensity)`.  The current
gain is not written here. -/
def setAudioIntensity (s : AudioState) (intensity : ℚ) : AudioState :=
  if s.audioStarted = false then s
  else
    let i := clampIntensity intensity
    { s with targetGain := 0.13 + 0.95 * i, filterFreq := 800 + 8000 * (1 - i) }

/-- Per-frame gain smoothing, part_000 line 286:
`currentGain += (targetGain - currentGain) * 0.04`. -/
def smoothGainStep (currentGain targetGain : ℚ) : ℚ :=
  currentGain + (targetGain - currentGain) * 0.04

/-- The state change performed by a call to `fadeOutAudio`, part_000 lines 133-137:
early return when not started or already fading; otherwise latch `fading`,
capture `start = currentGain` and `startTime = now`. -/
def fadeOutAudioBegin (s : AudioState) (now : ℚ) : AudioState :=
  if s.audioStarted = false ∨ s.fading = true then s
  else { s with fading := true, fadeStartGain := s.currentGain, fadeStartTime := now }

/-- Fade duration default, part_000 line 133: `duration = 1900`. -/
def fadeDuration : ℚ := 1900

/-- Fade progress, part_000 line 140: `t = Math.min(1, elapsed / duration)`. -/
def fadeT (elapsed : ℚ) : ℚ := min 1 (elapsed / fadeDuration)

/-- Faded gain, part_000 line 141: `currentGain = start * (1 - t)`. -/
def fadeGain (start t : ℚ) : ℚ := start * (1 - t)

/-- Initial `currentGain`, part_000 line 98. -/
def initialCurrentGain : ℚ := 1.0

/-- The gain installed by `startAudio`, part_000 lines 111-113. -/
def startAudioGain : ℚ := 0.7

/-- The largest target gain `setAudioIntensity` can produce: `0.13 + 0.95 * 1.2`. -/
def targetGainMax : ℚ := 0.13 + 0.95 * 1.2

/-- Vignette opacity, part_000 lines 376-378, with `maxDist = 7`, `minDist = 0`:
`(1 - Math.min(1, Math.max(0, (dist - minDist) / (maxDist - minDist)))) * 0.92`. -/
def vignetteOpacity (d : ℚ) : ℚ :=
  (1 - min 1 (max 0 ((d - 0) / (7 - 0)))) * 0.92

/-- The engulfment test of part_000 line 322, as a transition of the `hasCollided`
flag; the second component records whether `fadeOutAudio()` was called this frame. -/
def collideFrame (hasCollided : Bool) (dist : ℚ) : Bool × Bool :=
  if hasCollided = false ∧ dist < 1 then (true, true) else (hasCollided, false)

/-- Folding `collideFrame` over successive frames while counting `fadeOutAudio()` calls. -/
def collideFold (s : Bool × ℕ) (d : ℚ) : Bool × ℕ :=
  ((collideFrame s.1 d).1, s.2 + if (collideFrame s.1 d).2 then 1 else 0)

/-- A whole session: fold the engulfment check over the per-frame distances. -/
def runCollide (c : Bool) (ds : List ℚ) : Bool × ℕ :=
  ds.foldl collideFold (c, 0)

/-- The engulfment block, part_000 lines 321-327, together with the sphere position
it leaves untouched: the block writes `hasCollided` and calls `fadeOutAudio()`, and
contains no write to `sphere.position`. -/
def engulfmentBlock (pos : ℚ × ℚ × ℚ) (hasCollided : Bool) (dist : ℚ) :
    (ℚ × ℚ × ℚ) × Bool × Bool :=
  if hasCollided = false ∧ dist < 1 then (pos, true, true) else (pos, hasCollided, false)

/-- Minimal 3-vector over ℝ mirroring THREE.Vector3 as used by the loop. -/
@[ext]
structure Vec3 where
  x : ℝ
  y : ℝ
  z : ℝ

instance : Add Vec3 := ⟨fun a b => ⟨a.x + b.x, a.y + b.y, a.z + b.z⟩⟩

instance : Sub Vec3 := ⟨fun a b => ⟨a.x - b.x, a.y - b.y, a.z - b.z⟩⟩

instance : SMul ℝ Vec3 := ⟨fun c v => ⟨c * v.x, c * v.y, c * v.z⟩⟩

@[simp] lemma Vec3.add_x (a b : Vec3) : (a + b).x = a.x + b.x := rfl

@[simp] lemma Vec3.add_y (a b : Vec3) : (a + b).y = a.y + b.y := rfl

@[simp] lemma Vec3.add_z (a b : Vec3) : (a + b).z = a.z + b.z := rfl

@[simp] lemma Vec3.sub_x (a b : Vec3) : (a - b).x = a.x - b.x := rfl

@[simp] lemma Vec3.sub_y (a b : Vec3) : (a - b).y = a.y - b.y := rfl

@[simp] lemma Vec3.sub_z (a b : Vec3) : (a - b).z = a.z - b.z := rfl

@[simp] lemma Vec3.smul_x (c : ℝ) (v : Vec3) : (c • v).x = c * v.x := rfl

@[simp] lemma Vec3.smul_y (c : ℝ) (v : Vec3) : (c • v).y = c * v.y := rfl

@[simp] lemma Vec3.smul_z (c : ℝ) (v : Vec3) : (c • v).z = c * v.z := rfl

/-- THREE.Vector3.length: `sqrt(x*x + y*y + z*z)`. -/
noncomputable def Vec3.length (v : Vec3) : ℝ :=
  Real.sqrt (v.x * v.x + v.y * v.y + v.z * v.z)

/-- THREE.Vector3.normalize: `divideScalar(length() or 1)` — the zero vector is
left unchanged, every other vector is scaled by the inverse of its length. -/
noncomputable def Vec3.normalize (v : Vec3) : Vec3 :=
  if v.length = 0 then v else (1 / v.length) • v

/-- THREE.Vector3.setLength: `normalize().multiplyScalar(l)`. -/
noncomputable def Vec3.setLength (v : Vec3) (l : ℝ) : Vec3 := l • v.normalize

/-- Euclidean dot product on Vec3. -/
def dot (a b : Vec3) : ℝ := a.x * b.x + a.y * b.y + a.z * b.z

/-- part_000 line 242. -/
def maxSpeed : ℝ := 1.35

/-- part_000 line 241. -/
def friction : ℝ := 0.992

/-- Speed clamp, part_000 line 313:
`if (sphereVelocity.length() > maxSpeed) sphereVelocity.setLength(maxSpeed)`. -/
noncomputable def clampSpeed (v : Vec3) : Vec3 :=
  if maxSpeed < v.length then v.setLength maxSpeed else v

/-- The velocity pipeline of a frame, part_000 lines 303-316: gravity impulse and
noise are added, the player impulse is added when a key is held, then the speed
clamp, then the unconditional friction multiply. -/
noncomputable def velocityPhase (v grav noise moveVec : Vec3) (hasInput : Bool) : Vec3 :=
  friction • clampSpeed (v + grav + noise + (if hasInput then moveVec else ⟨0, 0, 0⟩))

/-- part_000 line 191. -/
def vortexPos : Vec3 := ⟨0, 0, -18⟩

/-- Particle attraction, part_000 lines 339-340:
`attract = Math.max(0.015, Math.min(0.07, 0.011 + 0.18 / (d * d)))`,
then `if (d < 23) attract *= 1.6`. -/
noncomputable def attractF (d : ℝ) : ℝ :=
  let base := max 0.015 (min 0.07 (0.011 + 0.18 / (d * d)))
  if d < 23 then base * 1.6 else base

/-- part_000 line 201. -/
def RANGE : ℝ := 1500

/-- The respawn position, part_000 lines 345-347, with the three `Math.random()`
draws passed in as oracle inputs in [0,1). -/
def spawn (r1 r2 r3 : ℝ) : Vec3 :=
  ⟨(r1 - 0.5) * RANGE, (r2 - 0.5) * RANGE * 0.5, (r3 - 0.5) * RANGE - 10⟩

/-- One particle update, part_000 lines 336-350: `d` is the distance of the
particle to the vortex before the update; the attraction is added to the
velocity, the velocity is decayed by 0.97 and added to the position, and when
`d < 3.5` the position is overwritten by a fresh spawn and the velocity zeroed. -/
noncomputable def particleStep (p v : Vec3) (r1 r2 r3 : ℝ) : Vec3 × Vec3 :=
  let toV := vortexPos - p
  let d := toV.length
  let v1 := (0.97 : ℝ) • (v + attractF d • toV.normalize)
  let p1 := p + v1
  if d < 3.5 then (spawn r1 r2 r3, ⟨0, 0, 0⟩) else (p1, v1)

/-- The particle loop, part_000 lines 331-356, over a list of (position, velocity)
pairs with one oracle triple per particle; no particle is ever added or removed. -/
noncomputable def particleFieldStep (ps : List (Vec3 × Vec3)) (rs : List (ℝ × ℝ × ℝ)) :
    List (Vec3 × Vec3) :=
  List.zipWith (fun pv r => particleStep pv.1 pv.2 r.1 r.2.1 r.2.2) ps rs

/-! Helper lemmas about the Vec3 operations. -/

lemma Vec3.length_nonneg (v : Vec3) : 0 ≤ v.length := Real.sqrt_nonneg _

lemma Vec3.length_smul (c : ℝ) (v : Vec3) : (c • v).length = |c| * v.length := by
  unfold Vec3.length
  simp only [Vec3.smul_x, Vec3.smul_y, Vec3.smul_z]
  rw [show c * v.x * (c * v.x) + c * v.y * (c * v.y) + c * v.z * (c * v.z)
        = c ^ 2 * (v.x * v.x + v.y * v.y + v.z * v.z) by ring,
    Real.sqrt_mul (sq_nonneg c), Real.sqrt_sq_eq_abs]

lemma Vec3.length_normalize (v : Vec3) (h : v.length ≠ 0) : v.normalize.length = 1 := by
  have hpos : 0 < v.length := lt_of_le_of_ne v.length_nonneg (Ne.symm h)
  rw [Vec3.normalize, if_neg h, Vec3.length_smul,
    abs_of_pos (by positivity : (0:ℝ) < 1 / v.length)]
  field_simp

lemma Vec3.length_setLength (v : Vec3) (l : ℝ) (h : v.length ≠ 0) (hl : 0 ≤ l) :
    (v.setLength l).length = l := by
  rw [Vec3.setLength, Vec3.length_smul, Vec3.length_normalize v h, abs_of_nonneg hl, mul_one]

lemma Vec3.smul_smul (a b : ℝ) (v : Vec3) : a • (b • v) = (a * b) • v := by
  ext <;> simp <;> ring

lemma Vec3.length_ne_zero (v : Vec3) (h : v ≠ ⟨0, 0, 0⟩) : v.length ≠ 0 := by
  intro h0
  apply h
  have hsum : v.x * v.x + v.y * v.y + v.z * v.z ≤ 0 := Real.sqrt_eq_zero'.mp h0
  have hx := mul_self_nonneg v.x
  have hy := mul_self_nonneg v.y
  have hz := mul_self_nonneg v.z
  have hx0 : v.x = 0 := mul_self_eq_zero.mp (le_antisymm (by nlinarith) hx)
  have hy0 : v.y = 0 := mul_self_eq_zero.mp (le_antisymm (by nlinarith) hy)
  have hz0 : v.z = 0 := mul_self_eq_zero.mp (le_antisymm (by nlinarith) hz)
  ext <;> simp [hx0, hy0, hz0]

lemma dot_smul_left (c : ℝ) (a b : Vec3) : dot (c • a) b = c * dot a b := by
  simp only [dot, Vec3.smul_x, Vec3.smul_y, Vec3.smul_z]
  ring

lemma dot_self_pos (v : Vec3) (h : v ≠ ⟨0, 0, 0⟩) : 0 < dot v v := by
  have hx := mul_self_nonneg v.x
  have hy := mul_self_nonneg v.y
  have hz := mul_self_nonneg v.z
  rcases lt_or_eq_of_le
      (by simpa [dot] using add_le_add (add_le_add hx hy) hz : (0:ℝ) ≤ dot v v) with hlt | heq
  · exact hlt
  · exfalso
    apply h
    have hsum : v.x * v.x + v.y * v.y + v.z * v.z = 0 := by simpa [dot] using heq.symm
    have hx0 : v.x = 0 := mul_self_eq_zero.mp (by nlinarith)
    have hy0 : v.y = 0 := mul_self_eq_zero.mp (by nlinarith)
    have hz0 : v.z = 0 := mul_self_eq_zero.mp (by nlinarith)
    ext <;> simp [hx0, hy0, hz0]

lemma maxSpeed_pos : (0:ℝ) < maxSpeed := by norm_num [maxSpeed]

lemma clampSpeed_length_le (v : Vec3) : (clampSpeed v).length ≤ maxSpeed := by
  rw [clampSpeed]
  split_ifs with h
  · have hne : v.length ≠ 0 := ne_of_gt (lt_trans maxSpeed_pos h)
    rw [Vec3.length_setLength v maxSpeed hne (le_of_lt maxSpeed_pos)]
  · exact not_lt.mp h

lemma attractF_lb (d : ℝ) : 0.015 ≤ attractF d := by
  rw [attractF]
  have hb : (0.015 : ℝ) ≤ max 0.015 (min 0.07 (0.011 + 0.18 / (d * d))) := le_max_left _ _
  split_ifs with h
  · nlinarith
  · exact hb

/-! Helper lemmas about the audio envelope and the collision latch. -/

lemma setAudioIntensity_started (s : AudioState) (v : ℚ) (h : s.audioStarted = true) :
    setAudioIntensity s v
      = { s with targetGain := 0.13 + 0.95 * clampIntensity v, filterFreq := 800 + 8000 * (1 - clampIntensity v) } := by
  rw [setAudioIntensity, if_neg (by rw [h]; simp)]

lemma clampIntensity_ge_one (v : ℚ) (hv : 1 ≤ v) :
    1 ≤ clampIntensity v ∧ clampIntensity v ≤ 1.2 := by
  rw [clampIntensity]
  rcases le_total 1.2 v with h | h
  · rw [min_eq_left h]; norm_num
  · rw [min_eq_right h]
    rw [max_eq_right (by linarith)]
    exact ⟨hv, h⟩

lemma collideFold_true (n : ℕ) (d : ℚ) : collideFold (true, n) d = (true, n) := by
  simp [collideFold, collideFrame]

lemma foldl_collide_true (ds : List ℚ) (n : ℕ) :
    ds.foldl collideFold (true, n) = (true, n) := by
  induction ds with
  | nil => rfl
  | cons d tl ih => rw [List.foldl_cons, collideFold_true]; exact ih

lemma foldl_collide_fires (ds : List ℚ) (h : ∃ d ∈ ds, d < 1) :
    ds.foldl collideFold (false, 0) = (true, 1) := by
  induction ds with
  | nil => simp at h
  | cons d tl ih =>
    by_cases hd : d < 1
    · have e : collideFold (false, 0) d = (true, 1) := by
        simp [collideFold, collideFrame, hd]
      rw [List.foldl_cons, e, foldl_collide_true]
    · have e : collideFold (false, 0) d = (false, 0) := by
        simp [collideFold, collideFrame, hd]
      rw [List.foldl_cons, e]
      apply ih
      rcases h with ⟨d0, hmem, hlt⟩
      rcases List.mem_cons.mp hmem with he | htl
      · exact absurd (he ▸ hlt) hd
      · exact ⟨d0, htl, hlt⟩

lemma foldl_collide_none (ds : List ℚ) (h : ∀ d ∈ ds, ¬ d < 1) :
    ds.foldl collideFold (false, 0) = (false, 0) := by
  induction ds with
  | nil => rfl
  | cons d tl ih =>
    have hd : ¬ d < 1 := h d (List.mem_cons_self d tl)
    have e : collideFold (false, 0) d = (false, 0) := by
      simp [collideFold, collideFrame, hd]
    rw [List.foldl_cons, e]
    exact ih fun d0 hd0 => h d0 (List.mem_cons_of_mem d hd0)

/-! The claim theorems. -/

/-- Claim C1: the claim says the distance is clamped to a positive minimum
before the division `K / dist²`, making the force magnitude bounded for every
sphere position.  The source applies no such clamp: at distance 0.1 the
strength is already -3955, and for every bound B there is a positive distance
at which the magnitude exceeds B, so the computed force is unbounded near the
vortex (and -Infinity in JS at distance exactly 0). -/
theorem claim_C1 :
    gravStrength 0.1 = -3955 ∧
    ∀ B : ℚ, ∃ d : ℚ, 0 < d ∧ d ≤ 1 ∧ B < |gravStrength d| := by
  constructor
  · norm_num [gravStrength, K]
  · intro B
    obtain ⟨n, hn⟩ := exists_nat_gt B
    set m : ℚ := (n : ℚ) + 1 with hm
    have hn0 : (0:ℚ) ≤ (n : ℚ) := Nat.cast_nonneg n
    have hm1 : 1 ≤ m := by rw [hm]; linarith
    have hmpos : 0 < m := by linarith
    refine ⟨1 / m, by positivity, ?_, ?_⟩
    · rw [div_le_one hmpos]; exact hm1
    · have h1m : 1 / m ≤ 1 := by rw [div_le_one hmpos]; exact hm1
      have hmin : min 1 ((1 / m - 10) / 400) = (1 / m - 10) / 400 := by
        apply min_eq_right
        rw [div_le_one (by norm_num : (0:ℚ) < 400)]
        linarith
      have hmne : m ≠ 0 := ne_of_gt hmpos
      have hg : gravStrength (1 / m) = 4.5 * m - 40 * m ^ 2 := by
        rw [gravStrength, K, hmin]
        field_simp
        ring
      have habs : |gravStrength (1 / m)| = 40 * m ^ 2 - 4.5 * m := by
        rw [hg, abs_of_nonpos (by nlinarith)]
        ring
      rw [habs]
      have hBm : B < m := by rw [hm]; linarith
      nlinarith [mul_nonneg (by linarith : (0:ℚ) ≤ m - 1) (by linarith : (0:ℚ) ≤ m)]

/-- Claim C2: starting not collided, the first frame with `dist < 1` latches
`hasCollided` and calls `fadeOutAudio`; over a whole session the latch flips at
most once, `fadeOutAudio` is called exactly once when some frame gets below
distance 1 (and never otherwise), a latched flag stays latched, and the
engulfment block leaves the sphere position untouched. -/
theorem claim_C2 (ds : List ℚ) (pos : ℚ × ℚ × ℚ) (c : Bool) (d : ℚ) :
    (runCollide false ds).2 ≤ 1 ∧
    ((∃ d0 ∈ ds, d0 < 1) → runCollide false ds = (true, 1)) ∧
    ((∀ d0 ∈ ds, ¬ d0 < 1) → runCollide false ds = (false, 0)) ∧
    (d < 1 → collideFrame false d = (true, true)) ∧
    collideFrame true d = (true, false) ∧
    (engulfmentBlock pos c d).1 = pos := by
  refine ⟨?_, fun h => foldl_collide_fires ds h, fun h => foldl_collide_none ds h,
    fun hd => by simp [collideFrame, hd], by simp [collideFrame], ?_⟩
  · by_cases h : ∃ d0 ∈ ds, d0 < 1
    · rw [runCollide, foldl_collide_fires ds h]
    · push_neg at h
      rw [runCollide, foldl_collide_none ds fun d0 hd0 => not_lt.mpr (h d0 hd0)]
      exact Nat.zero_le 1
  · rw [engulfmentBlock]
    split_ifs <;> rfl

/-- Witness for C2 at concrete traces: a session whose third frame dips below
distance 1 collides once; a session that never dips below 1 never collides;
the engulfment block preserves a concrete position. -/
theorem claim_C2_witness :
    runCollide false [2, 1/2, 3] = (true, 1) ∧
    runCollide false [2, 3] = (false, 0) ∧
    (engulfmentBlock (1, 2, 3) false (1/2)).1 = (1, 2, 3) := by
  refine ⟨(claim_C2 [2, 1/2, 3] (1, 2, 3) false (1/2)).2.1 ⟨1/2, by norm_num, by norm_num⟩,
    (claim_C2 [2, 3] (1, 2, 3) false (1/2)).2.2.1 ?_,
    (claim_C2 [] (1, 2, 3) false (1/2)).2.2.2.2.2⟩
  intro d0 hd0
  rcases List.mem_cons.mp hd0 with he | htl
  · rw [he]; norm_num
  · rw [List.mem_singleton.mp htl]; norm_num

/-- Claim C3: after the clamp step the velocity magnitude is at most `maxSpeed`
for any prior velocity; when it exceeded `maxSpeed` it is rescaled to exactly
`maxSpeed` by a positive scalar (direction preserved); the friction factor is
below 1 and is applied unconditionally after the clamp, so the post-friction
speed is at most `friction * maxSpeed`. -/
theorem claim_C3 (u v grav noise moveVec : Vec3) (hasInput : Bool) :
    (clampSpeed u).length ≤ maxSpeed ∧
    (maxSpeed < u.length →
      (clampSpeed u).length = maxSpeed ∧ ∃ c : ℝ, 0 < c ∧ clampSpeed u = c • u) ∧
    friction < 1 ∧
    velocityPhase v grav noise moveVec hasInput
      = friction • clampSpeed (v + grav + noise + (if hasInput then moveVec else ⟨0, 0, 0⟩)) ∧
    (velocityPhase v grav noise moveVec hasInput).length ≤ friction * maxSpeed := by
  refine ⟨clampSpeed_length_le u, fun h => ?_, by norm_num [friction], rfl, ?_⟩
  · have hne : u.length ≠ 0 := ne_of_gt (lt_trans maxSpeed_pos h)
    have hpos : 0 < u.length := lt_of_le_of_ne u.length_nonneg (Ne.symm hne)
    constructor
    · rw [clampSpeed, if_pos h, Vec3.length_setLength u maxSpeed hne (le_of_lt maxSpeed_pos)]
    · refine ⟨maxSpeed * (1 / u.length), mul_pos maxSpeed_pos (one_div_pos.mpr hpos), ?_⟩
      rw [clampSpeed, if_pos h, Vec3.setLength, Vec3.normalize, if_neg hne, Vec3.smul_smul]
  · rw [velocityPhase, Vec3.length_smul,
      abs_of_pos (by norm_num [friction] : (0:ℝ) < friction)]
    have := clampSpeed_length_le (v + grav + noise + (if hasInput then moveVec else ⟨0, 0, 0⟩))
    exact mul_le_mul_of_nonneg_left this (by norm_num [friction])

/-- Witness for C3 at the concrete velocity (9, 12, 20) of length 25: it exceeds
`maxSpeed` and the clamp rescales it to exactly `maxSpeed` along its own direction. -/
theorem claim_C3_witness :
    maxSpeed < Vec3.length ⟨9, 12, 20⟩ ∧
    (clampSpeed ⟨9, 12, 20⟩).length = maxSpeed ∧
    (∃ c : ℝ, 0 < c ∧ clampSpeed ⟨9, 12, 20⟩ = c • (⟨9, 12, 20⟩ : Vec3)) := by
  have hlen : Vec3.length ⟨9, 12, 20⟩ = 25 := by
    rw [Vec3.length]
    rw [show (9:ℝ) * 9 + 12 * 12 + 20 * 20 = 25 ^ 2 by norm_num]
    exact Real.sqrt_sq (by norm_num)
  have h : maxSpeed < Vec3.length ⟨9, 12, 20⟩ := by
    rw [hlen]; norm_num [maxSpeed]
  have hc := (claim_C3 ⟨9, 12, 20⟩ ⟨0, 0, 0⟩ ⟨0, 0, 0⟩ ⟨0, 0, 0⟩ ⟨0, 0, 0⟩ false).2.1 h
  exact ⟨h, hc.1, hc.2⟩

/-- Claim C4: a particle at distance `d ≥ 3.5` gets the attraction impulse of
magnitude `attractF d` added to its velocity, the velocity decays by 0.97 and
is added to the position; at `d < 3.5` the result is exactly a fresh spawn with
zero velocity; a spawn from oracle draws in [0,1) lies in the fixed box
[-750,750) x [-375,375) x [-760,740); and the field update preserves the
number of particles. -/
theorem claim_C4 (p v : Vec3) (r1 r2 r3 : ℝ)
    (ps : List (Vec3 × Vec3)) (rs : List (ℝ × ℝ × ℝ)) :
    (3.5 ≤ (vortexPos - p).length →
      particleStep p v r1 r2 r3
        = (p + (0.97 : ℝ) • (v + attractF (vortexPos - p).length • (vortexPos - p).normalize),
           (0.97 : ℝ) • (v + attractF (vortexPos - p).length • (vortexPos - p).normalize)) ∧
      (vortexPos - p ≠ ⟨0, 0, 0⟩ →
        (attractF (vortexPos - p).length • (vortexPos - p).normalize).length
          = attractF (vortexPos - p).length)) ∧
    0.015 ≤ attractF (vortexPos - p).length ∧
    ((vortexPos - p).length < 3.5 →
      particleStep p v r1 r2 r3 = (spawn r1 r2 r3, ⟨0, 0, 0⟩)) ∧
    (0 ≤ r1 → r1 < 1 → 0 ≤ r2 → r2 < 1 → 0 ≤ r3 → r3 < 1 →
      (-750 ≤ (spawn r1 r2 r3).x ∧ (spawn r1 r2 r3).x < 750) ∧
      (-375 ≤ (spawn r1 r2 r3).y ∧ (spawn r1 r2 r3).y < 375) ∧
      (-760 ≤ (spawn r1 r2 r3).z ∧ (spawn r1 r2 r3).z < 740)) ∧
    (rs.length = ps.length → (particleFieldStep ps rs).length = ps.length) := by
  refine ⟨fun h => ⟨?_, fun hne => ?_⟩, attractF_lb _, fun h => ?_, ?_, fun h => ?_⟩
  · rw [particleStep, if_neg (not_lt.mpr h)]
  · have hlne : (vortexPos - p).length ≠ 0 := Vec3.length_ne_zero _ hne
    rw [Vec3.length_smul, Vec3.length_normalize _ hlne, mul_one,
      abs_of_nonneg (by nlinarith [attractF_lb (vortexPos - p).length])]
  · rw [particleStep, if_pos h]
  · intro h1a h1b h2a h2b h3a h3b
    rw [spawn, RANGE]
    refine ⟨⟨?_, ?_⟩, ⟨?_, ?_⟩, ⟨?_, ?_⟩⟩ <;> simp <;> nlinarith
  · rw [particleFieldStep, List.length_zipWith, h, min_self]

/-- Witness for C4: a particle 3 units from the vortex is recycled to the spawn
of the oracle draws with zero velocity; a particle 5 units away receives an
impulse of magnitude exactly `attractF 5`; the spawn at draws (0,0,0) sits in
the spawn box; a one-particle field stays one particle. -/
theorem claim_C4_witness :
    particleStep ⟨3, 0, -18⟩ ⟨0, 0, 0⟩ 0 0 0 = (spawn 0 0 0, ⟨0, 0, 0⟩) ∧
    (attractF (vortexPos - ⟨5, 0, -18⟩).length • (vortexPos - ⟨5, 0, -18⟩).normalize).length
      = attractF (vortexPos - ⟨5, 0, -18⟩).length ∧
    ((-750 ≤ (spawn 0 0 0).x ∧ (spawn 0 0 0).x < 750) ∧
     (-375 ≤ (spawn 0 0 0).y ∧ (spawn 0 0 0).y < 375) ∧
     (-760 ≤ (spawn 0 0 0).z ∧ (spawn 0 0 0).z < 740)) ∧
    (particleFieldStep [(⟨3, 0, -18⟩, ⟨0, 0, 0⟩)] [(0, 0, 0)]).length = 1 := by
  have e3 : (vortexPos - (⟨3, 0, -18⟩ : Vec3)) = (⟨-3, 0, 0⟩ : Vec3) := by
    rw [vortexPos]; ext <;> simp
  have e5 : (vortexPos - (⟨5, 0, -18⟩ : Vec3)) = (⟨-5, 0, 0⟩ : Vec3) := by
    rw [vortexPos]; ext <;> simp
  have hl3 : (vortexPos - (⟨3, 0, -18⟩ : Vec3)).length = 3 := by
    rw [e3, Vec3.length]
    simp only
    rw [show (-3:ℝ) * -3 + 0 * 0 + 0 * 0 = 3 ^ 2 by norm_num]
    exact Real.sqrt_sq (by norm_num)
  have hl5 : (vortexPos - (⟨5, 0, -18⟩ : Vec3)).length = 5 := by
    rw [e5, Vec3.length]
    simp only
    rw [show (-5:ℝ) * -5 + 0 * 0 + 0 * 0 = 5 ^ 2 by norm_num]
    exact Real.sqrt_sq (by norm_num)
  have h1 := (claim_C4 ⟨3, 0, -18⟩ ⟨0, 0, 0⟩ 0 0 0 [] []).2.2.1
    (by rw [hl3]; norm_num)
  have h2 := ((claim_C4 ⟨5, 0, -18⟩ ⟨0, 0, 0⟩ 0 0 0 [] []).1
    (by rw [hl5]; norm_num)).2
    (by rw [e5]; intro hh; exact absurd (congrArg Vec3.x hh) (by norm_num))
  have h3 := (claim_C4 (⟨3, 0, -18⟩ : Vec3) ⟨0, 0, 0⟩ 0 0 0 [] []).2.2.2.1
    (by norm_num) (by norm_num) (by norm_num) (by norm_num) (by norm_num) (by norm_num)
  have h4 := (claim_C4 (⟨3, 0, -18⟩ : Vec3) ⟨0, 0, 0⟩ 0 0 0
    [((⟨3, 0, -18⟩ : Vec3), (⟨0, 0, 0⟩ : Vec3))] [((0:ℝ), (0:ℝ), (0:ℝ))]).2.2.2.2 rfl
  exact ⟨h1, h2, h3, h4⟩

/-- Claim C5: the initial gains sit in [0, targetGainMax]; one smoothing step
from a gain in [0, targetGainMax] toward a target in [0.13, targetGainMax]
stays in [0, targetGainMax]; the fade progress stays in [0,1]; and the fade
gain starts at the gain captured at trigger time, decreases monotonically with
the progress, reaches 0 at progress 1 and is never negative. -/
theorem claim_C5 (c t s e u v : ℚ)
    (hc0 : 0 ≤ c) (hc1 : c ≤ targetGainMax)
    (ht0 : 0.13 ≤ t) (ht1 : t ≤ targetGainMax)
    (hs : 0 ≤ s) (he : 0 ≤ e)
    (hu0 : 0 ≤ u) (huv : u ≤ v) (hv1 : v ≤ 1) :
    (0 ≤ initialCurrentGain ∧ initialCurrentGain ≤ targetGainMax) ∧
    (0 ≤ startAudioGain ∧ startAudioGain ≤ targetGainMax) ∧
    (0 ≤ smoothGainStep c t ∧ smoothGainStep c t ≤ targetGainMax) ∧
    (0 ≤ fadeT e ∧ fadeT e ≤ 1) ∧
    (fadeGain s 0 = s ∧ fadeGain s 1 = 0 ∧ 0 ≤ fadeGain s v ∧
      fadeGain s v ≤ fadeGain s u ∧ fadeGain s u ≤ s) := by
  have hgm : targetGainMax = 1.27 := by norm_num [targetGainMax]
  refine ⟨⟨by norm_num [initialCurrentGain], by rw [hgm]; norm_num [initialCurrentGain]⟩,
    ⟨by norm_num [startAudioGain], by rw [hgm]; norm_num [startAudioGain]⟩, ⟨?_, ?_⟩,
    ⟨?_, ?_⟩, ?_, ?_, ?_, ?_, ?_⟩
  · rw [smoothGainStep]; nlinarith
  · rw [smoothGainStep]; nlinarith
  · rw [fadeT]
    exact le_min (by norm_num) (div_nonneg he (by norm_num [fadeDuration]))
  · exact min_le_left _ _
  · rw [fadeGain]; ring
  · rw [fadeGain]; ring
  · rw [fadeGain]; nlinarith
  · rw [fadeGain, fadeGain]; nlinarith
  · rw [fadeGain]; nlinarith

/-- Witness for C5 at concrete values: one smoothing step from gain 1 toward
target 1.08 stays in range, and a fade from gain 1 is nonnegative at progress
one half and zero at progress 1. -/
theorem claim_C5_witness :
    (0 ≤ smoothGainStep 1 1.08 ∧ smoothGainStep 1 1.08 ≤ targetGainMax) ∧
    (0 ≤ fadeGain 1 (1 / 2) ∧ fadeGain 1 1 = 0) := by
  have h := claim_C5 1 1.08 1 0 0 (1 / 2) (by norm_num) (by norm_num [targetGainMax])
    (by norm_num) (by norm_num [targetGainMax]) (by norm_num) (by norm_num)
    (by norm_num) (by norm_num) (by norm_num)
  exact ⟨h.2.2.1, h.2.2.2.2.2.2.1, h.2.2.2.2.2.1⟩

/-- Claim C6: a second call to the fade-out trigger is absorbed — calling
`fadeOutAudio` on a state that is already fading changes nothing, the
composition of two calls equals one call (so the captured start gain and start
time of the first call survive), and a first successful call latches `fading`
and captures the current gain and the trigger time. -/
theorem claim_C6 (s : AudioState) (now now2 : ℚ) :
    fadeOutAudioBegin (fadeOutAudioBegin s now) now2 = fadeOutAudioBegin s now ∧
    (s.fading = true → fadeOutAudioBegin s now = s) ∧
    (s.audioStarted = true → s.fading = false →
      (fadeOutAudioBegin s now).fading = true ∧
      (fadeOutAudioBegin s now).fadeStartGain = s.currentGain ∧
      (fadeOutAudioBegin s now).fadeStartTime = now) := by
  by_cases hg : s.audioStarted = false ∨ s.fading = true
  · have e : fadeOutAudioBegin s now = s := by rw [fadeOutAudioBegin, if_pos hg]
    refine ⟨by rw [e, fadeOutAudioBegin, if_pos hg], fun _ => e, fun ha hf => ?_⟩
    rcases hg with hg | hg
    · rw [ha] at hg; exact absurd hg (by simp)
    · rw [hf] at hg; exact absurd hg (by simp)
  · have e : fadeOutAudioBegin s now
        = { s with fading := true, fadeStartGain := s.currentGain, fadeStartTime := now } := by
      rw [fadeOutAudioBegin, if_neg hg]
    refine ⟨?_, fun hf => absurd (Or.inr hf) hg, fun _ _ => by rw [e]; exact ⟨rfl, rfl, rfl⟩⟩
    rw [e, fadeOutAudioBegin, if_pos (Or.inr rfl)]

/-- Witness for C6 at a concrete already-fading state: the second trigger call
returns the state unchanged. -/
theorem claim_C6_witness :
    fadeOutAudioBegin ⟨true, true, 0.5, 1, 800, 0.5, 0⟩ 100
      = (⟨true, true, 0.5, 1, 800, 0.5, 0⟩ : AudioState) :=
  (claim_C6 ⟨true, true, 0.5, 1, 800, 0.5, 0⟩ 100 0).2.1 rfl

/-- Claim C7: on a started audio state, `setAudioIntensity` clamps its input to
[0, 1.2], sets `targetGain = 0.13 + 0.95 * clamped` and the filter cutoff to
`800 + 8000 * (1 - clamped)`, and changes no other field — in particular it
does not write `currentGain`. -/
theorem claim_C7 (s : AudioState) (v : ℚ) (h : s.audioStarted = true) :
    0 ≤ clampIntensity v ∧ clampIntensity v ≤ 1.2 ∧
    (setAudioIntensity s v).targetGain = 0.13 + 0.95 * clampIntensity v ∧
    (setAudioIntensity s v).filterFreq = 800 + 8000 * (1 - clampIntensity v) ∧
    (setAudioIntensity s v).currentGain = s.currentGain ∧
    (setAudioIntensity s v).fading = s.fading ∧
    (setAudioIntensity s v).audioStarted = s.audioStarted ∧
    (setAudioIntensity s v).fadeStartGain = s.fadeStartGain ∧
    (setAudioIntensity s v).fadeStartTime = s.fadeStartTime := by
  rw [setAudioIntensity_started s v h]
  refine ⟨le_max_left _ _, ?_, rfl, rfl, rfl, rfl, rfl, rfl, rfl⟩
  rw [clampIntensity]
  rcases le_total 1.2 v with hv | hv
  · rw [min_eq_left hv]
    norm_num
  · rw [min_eq_right hv]
    rcases le_total 0 v with h0 | h0
    · rw [max_eq_right h0]; linarith
    · rw [max_eq_left h0]; norm_num

/-- Witness for C7 at a concrete started state and input 2 (clamped to 1.2). -/
theorem claim_C7_witness :
    0 ≤ clampIntensity 2 ∧ clampIntensity 2 ≤ 1.2 ∧
    (setAudioIntensity ⟨true, false, 0.5, 0.7, 10000, 0, 0⟩ 2).targetGain
      = 0.13 + 0.95 * clampIntensity 2 ∧
    (setAudioIntensity ⟨true, false, 0.5, 0.7, 10000, 0, 0⟩ 2).currentGain = 0.5 := by
  have h := claim_C7 ⟨true, false, 0.5, 0.7, 10000, 0, 0⟩ 2 rfl
  exact ⟨h.1, h.2.1, h.2.2.1, h.2.2.2.2.1⟩

/-- Claim C8: the vignette opacity equals 0.92 at distance 0, falls linearly as
`0.92 * (1 - d/7)` on [0,7], and is exactly 0 (never negative) for every
distance at or beyond 7, for example at distance 14. -/
theorem claim_C8 :
    vignetteOpacity 0 = 0.92 ∧ vignetteOpacity 7 = 0 ∧ vignetteOpacity 14 = 0 ∧
    (∀ d : ℚ, 0 ≤ d → d ≤ 7 → vignetteOpacity d = 0.92 * (1 - d / 7)) ∧
    (∀ d : ℚ, 7 ≤ d → vignetteOpacity d = 0) := by
  refine ⟨by norm_num [vignetteOpacity], by norm_num [vignetteOpacity],
    by norm_num [vignetteOpacity], ?_, ?_⟩
  · intro d h0 h7
    have e : (d - 0) / ((7:ℚ) - 0) = d / 7 := by ring
    rw [vignetteOpacity, e, max_eq_right (by positivity),
      min_eq_right ((div_le_one (by norm_num : (0:ℚ) < 7)).mpr h7)]
    ring
  · intro d h7
    have e : (d - 0) / ((7:ℚ) - 0) = d / 7 := by ring
    rw [vignetteOpacity, e, max_eq_right (div_nonneg (by linarith) (by norm_num)),
      min_eq_left ((one_le_div (by norm_num : (0:ℚ) < 7)).mpr h7)]
    ring

/-- Witness for C8 on the linear segment at distance 3.5 and past the knee at 9. -/
theorem claim_C8_witness :
    vignetteOpacity (7 / 2) = 0.92 * (1 - (7 / 2) / 7) ∧ vignetteOpacity 9 = 0 :=
  ⟨claim_C8.2.2.2.1 (7 / 2) (by norm_num) (by norm_num),
   claim_C8.2.2.2.2 9 (by norm_num)⟩

/-- Claim C9: the coefficient K is strictly negative for every distance below
80/9, and there the scalar gravity strength is negative, so the impulse
`gravStrength • dir` added to the velocity points away from the vortex
(negative dot product with the unit direction toward it). -/
theorem claim_C9 (d : ℚ) (hd : d < 80 / 9) :
    K d < 0 ∧ (0 < d → gravStrength d < 0 ∧
      ∀ dir : Vec3, dir ≠ ⟨0, 0, 0⟩ → dot (((gravStrength d : ℝ)) • dir) dir < 0) := by
  have hmin : min 1 ((d - 10) / 400) = (d - 10) / 400 := by
    apply min_eq_right
    rw [div_le_one (by norm_num : (0:ℚ) < 400)]
    linarith
  have hKneg : K d < 0 := by
    rw [K, hmin]
    rw [show (5:ℚ) + 1800 * ((d - 10) / 400) = 5 + 4.5 * (d - 10) by ring]
    linarith
  refine ⟨hKneg, fun hd0 => ?_⟩
  have hgneg : gravStrength d < 0 :=
    div_neg_of_neg_of_pos hKneg (mul_pos hd0 hd0)
  refine ⟨hgneg, fun dir hne => ?_⟩
  have hgr : ((gravStrength d : ℝ)) < 0 := by exact_mod_cast hgneg
  rw [dot_smul_left]
  exact mul_neg_of_neg_of_pos hgr (dot_self_pos dir hne)

/-- Witness for C9 at distance 5: K is negative, the strength is negative, and
the impulse along the unit x direction points against it. -/
theorem claim_C9_witness :
    K 5 < 0 ∧ gravStrength 5 < 0 ∧
      dot (((gravStrength 5 : ℝ)) • ⟨1, 0, 0⟩) ⟨1, 0, 0⟩ < 0 :=
  have h : (5:ℚ) < 80 / 9 := by norm_num
  have h5 : (0:ℚ) < 5 := by norm_num
  ⟨(claim_C9 5 h).1, ((claim_C9 5 h).2 h5).1,
    ((claim_C9 5 h).2 h5).2 ⟨1, 0, 0⟩ (fun hh => one_ne_zero (congrArg Vec3.x hh))⟩

/-- Claim C10: the per-frame intensity `2 - min(1, dist/160)` is at least 1 for
every nonnegative distance, so on a started state every `setAudioIntensity`
call leaves `targetGain` in [1.08, 1.27] and the filter cutoff in [-800, 800];
at distance 0 the cutoff is exactly -800, a non-positive frequency. -/
theorem claim_C10 (d : ℚ) (hd : 0 ≤ d) (s : AudioState) (hs : s.audioStarted = true) :
    1 ≤ intensityOf d ∧
    1.08 ≤ (setAudioIntensity s (intensityOf d)).targetGain ∧
    (setAudioIntensity s (intensityOf d)).targetGain ≤ 1.27 ∧
    -800 ≤ (setAudioIntensity s (intensityOf d)).filterFreq ∧
    (setAudioIntensity s (intensityOf d)).filterFreq ≤ 800 ∧
    (setAudioIntensity s (intensityOf 0)).filterFreq = -800 := by
  have hi : 1 ≤ intensityOf d := by
    rw [intensityOf]
    have : min 1 (d / 160) ≤ 1 := min_le_left _ _
    linarith
  have hc := clampIntensity_ge_one (intensityOf d) hi
  have ht : (setAudioIntensity s (intensityOf d)).targetGain
      = 0.13 + 0.95 * clampIntensity (intensityOf d) := by
    rw [setAudioIntensity_started s _ hs]
  have hf : (setAudioIntensity s (intensityOf d)).filterFreq
      = 800 + 8000 * (1 - clampIntensity (intensityOf d)) := by
    rw [setAudioIntensity_started s _ hs]
  have hf0 : (setAudioIntensity s (intensityOf 0)).filterFreq
      = 800 + 8000 * (1 - clampIntensity (intensityOf 0)) := by
    rw [setAudioIntensity_started s _ hs]
  have hclamp0 : clampIntensity (intensityOf 0) = 1.2 := by
    rw [show intensityOf 0 = 2 by norm_num [intensityOf], clampIntensity]
    norm_num
  refine ⟨hi, ?_, ?_, ?_, ?_, ?_⟩
  · rw [ht]; nlinarith [hc.1, hc.2]
  · rw [ht]; nlinarith [hc.1, hc.2]
  · rw [hf]; nlinarith [hc.1, hc.2]
  · rw [hf]; nlinarith [hc.1, hc.2]
  · rw [hf0, hclamp0]; norm_num

/-- Witness for C10 at distance 160 on a concrete started state, plus the
cutoff value -800 produced at distance 0. -/
theorem claim_C10_witness :
    1 ≤ intensityOf 160 ∧
    1.08 ≤ (setAudioIntensity ⟨true, false, 0.7, 0.7, 10000, 0, 0⟩ (intensityOf 160)).targetGain ∧
    (setAudioIntensity ⟨true, false, 0.7, 0.7, 10000, 0, 0⟩ (intensityOf 0)).filterFreq = -800 := by
  have h := claim_C10 160 (by norm_num) ⟨true, false, 0.7, 0.7, 10000, 0, 0⟩ rfl
  exact ⟨h.1, h.2.1, h.2.2.2.2.2⟩

end Resurgence
